import Mathlib

/-
  Verification development for the website-vulnerability-scanner repository.

  Shallow embedding of:
    - src/scanner/scanner.ts           (WebsiteScanner: normalizeUrl, calculateSummary, scanWebsite)
    - src/scanner/security-checks.ts   (SecurityChecker: checkSecurityHeaders, checkCookies;
                                        multi-page WebsiteScanner: pagesScanned computation)
    - src/scanner/apify-crawler.ts     (ApifyCrawler.crawl: BFS loop with processed-set dedup)
    - src/durable-objects/ScanSession.ts (session handlers: initiateScan, handleChat,
                                          updateScanResult, getStatus, getChatHistory)

  JavaScript strings are modelled as Lean String; the JS string primitives used by
  the source (startsWith, endsWith, slice(0,-1), includes, toLowerCase, split) are
  embedded below as char-list functions with JS semantics (ASCII data throughout).
  Finding prose fields (title, description, recommendation, details) are constant
  strings never inspected by any code path and are omitted from the Finding record.
-/

namespace WVS

/-- JS `s.startsWith(p)` (src uses it in normalizeUrl and checkCookies). -/
def beginsWith : List Char → List Char → Bool
  | [], _ => true
  | _ :: _, [] => false
  | p :: ps, c :: cs => p == c && beginsWith ps cs

/-- JS `s.startsWith(p)`. -/
def jsStartsWith (s p : String) : Bool := beginsWith p.data s.data

/-- JS `s.endsWith(p)`. -/
def jsEndsWith (s p : String) : Bool := beginsWith p.data.reverse s.data.reverse

/-- JS `s.slice(0, -1)`: drop the last character. -/
def jsDropLast (s : String) : String := ⟨s.data.dropLast⟩

/-- substring occurrence test, JS `s.includes(p)`. -/
def containsAt : List Char → List Char → Bool
  | _, [] => true
  | [], _ :: _ => false
  | c :: cs, p :: ps => (beginsWith (p :: ps) (c :: cs)) || containsAt cs (p :: ps)

/-- JS `s.includes(p)`. -/
def jsIncludes (s p : String) : Bool := containsAt s.data p.data

/-- JS `s.toLowerCase()` (ASCII). -/
def jsToLower (s : String) : String := ⟨s.data.map Char.toLower⟩

/-- Severity enum from src/types.ts. -/
inductive Severity
  | low
  | medium
  | high
  | critical
deriving DecidableEq, Repr

/-- Finding category enum (`type` field) from src/types.ts. -/
inductive FindingType
  | header
  | ssl
  | content
  | cookie
  | file
  | xss
  | cors
  | library
deriving DecidableEq, Repr

/-- SecurityFinding from src/types.ts. The TS interface has no `url` property,
so at runtime `f.url` is `undefined`; we record that as an `Option String`
defaulting to `none`. Prose fields are omitted (see header comment). -/
structure SecurityFinding where
  id : String
  ftype : FindingType
  severity : Severity
  url : Option String := none
deriving DecidableEq, Repr

/-- summary object of ScanResult from src/types.ts. -/
structure Summary where
  total : Nat
  critical : Nat
  high : Nat
  medium : Nat
  low : Nat
deriving DecidableEq, Repr

/-- Scan status enum from src/types.ts. -/
inductive ScanStatus
  | pending
  | running
  | completed
  | failed
deriving DecidableEq, Repr

/-- ScanResult from src/types.ts. -/
structure ScanResult where
  id : String
  url : String
  timestamp : Nat
  status : ScanStatus
  findings : List SecurityFinding
  summary : Summary
deriving DecidableEq, Repr

/-- The switch statement inside calculateSummary (scanner.ts lines 87-102):
one forEach iteration bumps the counter for the finding's severity. -/
def bumpSeverity (s : Summary) (sev : Severity) : Summary :=
  match sev with
  | .critical => { s with critical := s.critical + 1 }
  | .high => { s with high := s.high + 1 }
  | .medium => { s with medium := s.medium + 1 }
  | .low => { s with low := s.low + 1 }

/-- WebsiteScanner.calculateSummary (scanner.ts lines 78-105): start from
total = findings.length and zero counters, then forEach-bump per finding. -/
def calculateSummary (findings : List SecurityFinding) : Summary :=
  findings.foldl (fun s f => bumpSeverity s f.severity)
    { total := findings.length, critical := 0, high := 0, medium := 0, low := 0 }

/-- WebsiteScanner.normalizeUrl (scanner.ts lines 64-76): prepend https:// when
no scheme, then strip one trailing slash when length > 1. -/
def normalizeUrl (url : String) : String :=
  let url1 :=
    if !(jsStartsWith url "http://") && !(jsStartsWith url "https://") then
      "https://" ++ url
    else
      url
  if jsEndsWith url1 "/" && decide (url1.length > 1) then
    jsDropLast url1
  else
    url1

example : normalizeUrl "example.com" = "https://example.com" := by decide

example : normalizeUrl "https://a.com/" = "https://a.com" := by decide

example : normalizeUrl "https://a.com//" = "https://a.com/" := by decide

/-! ## SecurityChecker (security-checks.ts)

The class holds `url`, `response`, `html` as fields; each check is embedded as a
function of the fields it reads. Response headers are a name/value list; the
Fetch-API `headers.get(name)` is a case-insensitive lookup returning null when
the header is absent. -/

/-- Fetch-API `headers.get(name)`: case-insensitive lookup, null when absent. -/
def headersGet (hs : List (String × String)) (name : String) : Option String :=
  (hs.find? (fun p => jsToLower p.1 == jsToLower name)).map Prod.snd

/-- JS truthiness of `headers.get(h)` results: null and the empty string are
falsy, so `!headers.get(h)` treats an empty-valued header as missing. -/
def isFalsy : Option String → Bool
  | none => true
  | some v => v == ""

/-- The six-entry securityHeaders table of checkSecurityHeaders
(security-checks.ts lines 25-56), in object-literal insertion order, which is
the iteration order of Object.entries. -/
def securityHeadersTable : List (String × Severity) :=
  [("Content-Security-Policy", Severity.high),
   ("X-Frame-Options", Severity.medium),
   ("X-Content-Type-Options", Severity.medium),
   ("X-XSS-Protection", Severity.low),
   ("Strict-Transport-Security", Severity.high),
   ("Referrer-Policy", Severity.low)]

/-- SecurityChecker.checkSecurityHeaders (security-checks.ts lines 20-89):
one `missing-<header>` finding per falsy header in the table, then a
`csp-no-default-src` finding when a truthy CSP value lacks `default-src`. -/
def checkSecurityHeaders (headers : List (String × String)) : List SecurityFinding :=
  let missing := securityHeadersTable.filterMap (fun hc =>
    if isFalsy (headersGet headers hc.1) then
      some { id := "missing-" ++ jsToLower hc.1, ftype := FindingType.header,
             severity := hc.2 }
    else
      none)
  let cspFindings :=
    match headersGet headers "Content-Security-Policy" with
    | none => []
    | some csp =>
      if csp == "" then []
      else if !(jsIncludes csp "default-src") then
        [{ id := "csp-no-default-src", ftype := FindingType.header,
           severity := Severity.medium }]
      else []
  missing ++ cspFindings

/-- Tail of the lookahead `[^;]+?=` after its first character: true when a
literal `=` appears after zero or more further non-`;` characters. -/
def scanForEq : List Char → Bool
  | [] => false
  | c :: cs => if c == '=' then true else if c == ';' then false else scanForEq cs

/-- The regex lookahead `(?=[^;]+?=)`: at least one non-`;` character followed
by a literal `=`. -/
def cookieBoundary : List Char → Bool
  | [] => false
  | c :: cs => if c == ';' then false else scanForEq cs

/-- JS `setCookie.split(/,(?=[^;]+?=)/)`: split at each comma whose lookahead
matches; the comma is consumed, the lookahead is not. -/
def splitCookiesAux : List Char → List Char → List String
  | [], acc => [⟨acc.reverse⟩]
  | c :: cs, acc =>
    if c == ',' && cookieBoundary cs then
      String.mk acc.reverse :: splitCookiesAux cs []
    else
      splitCookiesAux cs (c :: acc)

/-- Cookie splitting used by checkCookies (security-checks.ts line 140). -/
def splitCookies (s : String) : List String := splitCookiesAux s.data []

/-- The forEach body of checkCookies (security-checks.ts lines 142-182) for one
cookie string and its index: flags missing Secure (only on https pages),
HttpOnly and SameSite, in that order. -/
def cookieFindings (url : String) (index : Nat) (cookie : String) : List SecurityFinding :=
  let cookieLower := jsToLower cookie
  (if !(jsIncludes cookieLower "secure") && jsStartsWith url "https://" then
    [{ id := "cookie-" ++ toString index ++ "-no-secure",
       ftype := FindingType.cookie, severity := Severity.medium }]
  else []) ++
  (if !(jsIncludes cookieLower "httponly") then
    [{ id := "cookie-" ++ toString index ++ "-no-httponly",
       ftype := FindingType.cookie, severity := Severity.medium }]
  else []) ++
  (if !(jsIncludes cookieLower "samesite") then
    [{ id := "cookie-" ++ toString index ++ "-no-samesite",
       ftype := FindingType.cookie, severity := Severity.low }]
  else [])

/-- SecurityChecker.checkCookies (security-checks.ts lines 137-185): read the
Set-Cookie header (falsy, i.e. absent or empty, means no cookies), split it on
attribute-boundary commas, and run the per-cookie checks with indices. -/
def checkCookies (url : String) (headers : List (String × String)) : List SecurityFinding :=
  let setCookie := headersGet headers "Set-Cookie"
  let cookies :=
    match setCookie with
    | none => []
    | some s => if s == "" then [] else splitCookies s
  (cookies.enum).flatMap (fun ic => cookieFindings url ic.1 ic.2)

example :
    (checkCookies "https://example.com" [("Set-Cookie", "a=1")]).map
      (fun f => (f.id, f.severity)) =
    [("cookie-0-no-secure", Severity.medium),
     ("cookie-0-no-httponly", Severity.medium),
     ("cookie-0-no-samesite", Severity.low)] := by decide

example :
    checkCookies "https://example.com"
      [("Set-Cookie", "a=1; Secure; HttpOnly; SameSite=Lax")] = [] := by decide

/-- pagesScanned computation of the multi-page WebsiteScanner.scanWebsite
(security-checks.ts line 413): when findings exist, the size of the set of
`f.url || targetUrl` values, else 1. Set size is modelled as dedup length. -/
def pagesScanned (targetUrl : String) (allFindings : List SecurityFinding) : Nat :=
  if allFindings.length > 0 then
    ((allFindings.map (fun f => f.url.getD targetUrl)).dedup).length
  else
    1

/-! ## Scan orchestration (scanner.ts WebsiteScanner.scanWebsite)

`fetch` and the checker battery perform I/O and may throw; they are embedded as
oracle parameters returning `Except String _` (error = a thrown exception).
`scanId` and `timestamp` (generateScanId / Date.now) are likewise parameters.
The try block: normalize, fetch, throw on `!response.ok`, run the checks,
assemble a completed result; the catch clause returns a failed result carrying
the original unnormalized url, empty findings and a zeroed summary. -/

/-- The fields of a Fetch-API Response read by scanWebsite and the checker. -/
structure FetchResponse where
  ok : Bool
  statusCode : Nat
  headers : List (String × String)
  htmlBody : String
deriving DecidableEq, Repr

/-- The try-block of scanWebsite (scanner.ts lines 9-45) as an Except value:
any thrown error surfaces as `.error`. -/
def scanAttempt (targetUrl : String)
    (fetch : String → Except String FetchResponse)
    (runChecks : String → FetchResponse → Except String (List SecurityFinding)) :
    Except String (List SecurityFinding) :=
  match fetch targetUrl with
  | .error e => .error e
  | .ok resp =>
    if resp.ok = false then
      .error ("HTTP " ++ toString resp.statusCode)
    else
      runChecks targetUrl resp

/-- WebsiteScanner.scanWebsite (scanner.ts lines 5-58). -/
def scanWebsite (scanId : String) (timestamp : Nat) (url : String)
    (fetch : String → Except String FetchResponse)
    (runChecks : String → FetchResponse → Except String (List SecurityFinding)) :
    ScanResult :=
  let targetUrl := normalizeUrl url
  match scanAttempt targetUrl fetch runChecks with
  | .ok findings =>
    { id := scanId, url := targetUrl, timestamp := timestamp,
      status := ScanStatus.completed, findings := findings,
      summary := calculateSummary findings }
  | .error _ =>
    { id := scanId, url := url, timestamp := timestamp,
      status := ScanStatus.failed, findings := [],
      summary := { total := 0, critical := 0, high := 0, medium := 0, low := 0 } }

/-! ## Session store (ScanSession.ts)

The durable object's storage holds one optional session record. Each handler is
embedded as a state transition on `Option SessionData`; `Date.now()` is the
explicit `now` parameter, generated ids are parameters, and the assistant text
produced by generateAIResponse (which never throws: it has its own fallback) is
a parameter. A handler returns its HTTP status code and the storage contents
after the handler ran. -/

/-- Chat roles from src/types.ts. -/
inductive ChatRole
  | user
  | assistant
deriving DecidableEq, Repr

/-- ChatMessage from src/types.ts. -/
structure ChatMessage where
  id : String
  role : ChatRole
  content : String
  timestamp : Nat
deriving DecidableEq, Repr

/-- ScanSession session record from src/types.ts. -/
structure SessionData where
  scanId : String
  url : String
  scanResult : Option ScanResult := none
  chatHistory : List ChatMessage
  createdAt : Nat
  lastActivity : Nat
deriving DecidableEq, Repr

/-- HTTP status plus the storage contents after a handler ran. -/
structure HandlerResult where
  status : Nat
  newState : Option SessionData
deriving DecidableEq, Repr

/-- ScanSession.initiateScan (ScanSession.ts lines 50-91): 400 on falsy url;
otherwise load-or-create the session, reset url/scanResult/chatHistory when the
url changed, stamp lastActivity, save. -/
def initiateScan (now : Nat) (newScanId : String) (url : Option String)
    (stored : Option SessionData) : HandlerResult :=
  if isFalsy url then
    { status := 400, newState := stored }
  else
    let u := url.getD ""
    let d :=
      match stored with
      | none =>
        { scanId := newScanId, url := u, chatHistory := [],
          createdAt := now, lastActivity := now : SessionData }
      | some d => d
    let d :=
      if d.url ≠ u then
        { d with url := u, scanResult := none, chatHistory := [] }
      else
        d
    let d := { d with lastActivity := now }
    { status := 200, newState := some d }

/-- ScanSession.handleChat (ScanSession.ts lines 93-144): 400 on falsy message,
404 when no session; otherwise append the user message and the assistant reply,
stamp lastActivity, save. -/
def handleChat (now : Nat) (userMsgId assistantMsgId aiResponse : String)
    (message : Option String) (stored : Option SessionData) : HandlerResult :=
  if isFalsy message then
    { status := 400, newState := stored }
  else
    match stored with
    | none => { status := 404, newState := none }
    | some d =>
      let userMessage : ChatMessage :=
        { id := userMsgId, role := ChatRole.user,
          content := message.getD "", timestamp := now }
      let assistantMessage : ChatMessage :=
        { id := assistantMsgId, role := ChatRole.assistant,
          content := aiResponse, timestamp := now }
      let d := { d with
        chatHistory := d.chatHistory ++ [userMessage, assistantMessage],
        lastActivity := now }
      { status := 200, newState := some d }

/-- ScanSession.updateScanResult (ScanSession.ts lines 228-242): when a session
exists, set scanResult and stamp lastActivity; always report success. -/
def updateScanResult (now : Nat) (result : ScanResult)
    (stored : Option SessionData) : HandlerResult :=
  match stored with
  | none => { status := 200, newState := none }
  | some d =>
    { status := 200,
      newState := some { d with scanResult := some result, lastActivity := now } }

/-- ScanSession.getStatus (ScanSession.ts lines 146-166): 404 when no session;
otherwise serialize the session. It performs no storage write (loadSession only
reads, saveSession is never called), so the stored record is returned as-is;
the `now` parameter is the operation time, which the handler never uses. -/
def getStatus (now : Nat) (stored : Option SessionData) : HandlerResult :=
  match stored with
  | none => { status := 404, newState := none }
  | some d => { status := 200, newState := some d }

/-- ScanSession.getChatHistory (ScanSession.ts lines 168-183): 404 when no
session; otherwise serialize chatHistory. Like getStatus it performs no
storage write and ignores the operation time. -/
def getChatHistory (now : Nat) (stored : Option SessionData) : HandlerResult :=
  match stored with
  | none => { status := 404, newState := none }
  | some d => { status := 200, newState := some d }

/-! ## Crawler (apify-crawler.ts ApifyCrawler.crawl)

The crawl loop fetches a url, and on success runs the page callback, marks the
url processed, bumps the page count and (below maxDepth) enqueues the extracted
same-host links that are not in the processed set. A site is embedded as a
finite association list from url to the link list that a successful fetch and
extractLinks would produce; absent urls model fetch failures / non-ok
responses, both of which just `continue`. The `processed` list records, in
order, exactly the urls on which the callback ran (the code invokes the
callback and adds to processedUrls in the same branch). -/

/-- A finite site graph: url to extracted same-host links of its page. -/
structure Site where
  pages : List (String × List String)
deriving DecidableEq, Repr

/-- Successful fetch plus link extraction for a url, none on fetch failure. -/
def lookupLinks (site : Site) (u : String) : Option (List String) :=
  (site.pages.find? (fun p => p.1 == u)).map Prod.snd

/-- Mutable state of the while loop in ApifyCrawler.crawl (lines 33-36):
the FIFO queue of (url, depth), the processedUrls set (as the ordered list of
callback invocations) and processedCount. -/
structure CrawlState where
  queue : List (String × Nat)
  processed : List String
  count : Nat
deriving DecidableEq, Repr

/-- One iteration of the while body (apify-crawler.ts lines 39-79): dequeue;
skip already-processed urls; skip fetch failures; otherwise run the callback,
mark processed, bump the count, and below maxDepth enqueue the page's links
that are not in the processed set (which already contains the current url). -/
def crawlStep (site : Site) (maxDepth : Nat) (s : CrawlState) : CrawlState :=
  match s.queue with
  | [] => s
  | (u, d) :: rest =>
    if s.processed.contains u then
      { s with queue := rest }
    else
      match lookupLinks site u with
      | none => { s with queue := rest }
      | some links =>
        let processed1 := s.processed ++ [u]
        let enq :=
          if d < maxDepth then
            (links.filter (fun l => !(processed1.contains l))).map (fun l => (l, d + 1))
          else
            []
        { queue := rest ++ enq, processed := processed1, count := s.count + 1 }

/-- The distinct urls the site can ever fetch successfully. -/
def siteKeys (site : Site) : List String := (site.pages.map Prod.fst).dedup

/-- Number of fetchable urls not yet processed. -/
def unprocessedCount (site : Site) (processed : List String) : Nat :=
  ((siteKeys site).filter (fun k => !(processed.contains k))).length

/-- Total number of link occurrences across the whole site. -/
def totalLinks (site : Site) : Nat := (site.pages.map (fun p => p.2.length)).sum

/-- Termination measure for the crawl loop: every iteration either shortens the
queue without touching `processed`, or processes a fetchable url, shrinking the
unprocessed supply while growing the queue by at most `totalLinks`. -/
def crawlMeasure (site : Site) (s : CrawlState) : Nat :=
  unprocessedCount site s.processed * (totalLinks site + 1) + s.queue.length

theorem length_filter_le_of_imp (p q : String → Bool)
    (himp : ∀ k, q k = true → p k = true) :
    ∀ l : List String, (l.filter q).length ≤ (l.filter p).length := by
  intro l
  induction l with
  | nil => simp
  | cons a t ih =>
    rw [List.filter_cons, List.filter_cons]
    cases hq : q a with
    | false =>
      cases hp : p a with
      | false => simpa using ih
      | true => simp only [if_false, if_true, List.length_cons]
                exact Nat.le_succ_of_le ih
    | true =>
      rw [himp a hq]
      simp only [if_true, List.length_cons]
      exact Nat.succ_le_succ ih

theorem filter_length_lt_of_stronger (l : List String) (p q : String → Bool)
    (himp : ∀ k, q k = true → p k = true)
    (x : String) (hxl : x ∈ l) (hxp : p x = true) (hxq : q x = false) :
    (l.filter q).length < (l.filter p).length := by
  induction l with
  | nil => cases hxl
  | cons a t ih =>
    rcases List.mem_cons.mp hxl with rfl | hxt
    · rw [List.filter_cons, List.filter_cons, hxp, hxq]
      simp only [if_true, if_false, List.length_cons]
      exact Nat.lt_succ_of_le (length_filter_le_of_imp p q himp t)
    · rw [List.filter_cons, List.filter_cons]
      cases hq : q a with
      | false =>
        cases hp : p a with
        | false => simpa using ih hxt
        | true => simp only [if_false, if_true, List.length_cons]
                  exact Nat.lt_succ_of_lt (ih hxt)
      | true =>
        rw [himp a hq]
        simp only [if_true, List.length_cons]
        exact Nat.succ_lt_succ (ih hxt)

theorem measure_arith (a b K r e : Nat) (h1 : a + K ≤ b) (he : e < K) :
    a + (r + e) < b + (r + 1) := by omega

theorem unprocessedCount_lt (site : Site) (processed : List String) (u : String)
    (hmem : u ∈ (site.pages.map Prod.fst)) (hu : processed.contains u = false) :
    unprocessedCount site (processed ++ [u]) < unprocessedCount site processed := by
  unfold unprocessedCount
  apply filter_length_lt_of_stronger (siteKeys site)
    (fun k => !(processed.contains k)) (fun k => !((processed ++ [u]).contains k))
  · intro k hk
    simp only [Bool.not_eq_true'] at hk ⊢
    simp at hk ⊢
    exact hk.1
  · exact List.mem_dedup.mpr hmem
  · simp only [Bool.not_eq_true']
    exact hu
  · simp

theorem links_le_totalLinks (site : Site) (u : String) (links : List String)
    (h : lookupLinks site u = some links) : links.length ≤ totalLinks site := by
  unfold lookupLinks at h
  cases hf : site.pages.find? (fun p => p.1 == u) with
  | none => rw [hf] at h; cases h
  | some pr =>
    rw [hf] at h
    have hprmem : pr ∈ site.pages := List.mem_of_find?_eq_some hf
    have hlinks : pr.2 = links := by simpa using h
    have : pr.2.length ∈ site.pages.map (fun p => p.2.length) :=
      List.mem_map.mpr ⟨pr, hprmem, rfl⟩
    have := List.single_le_sum (fun x _ => Nat.zero_le x) _ this
    rw [hlinks] at this
    exact this

theorem lookupLinks_mem_keys (site : Site) (u : String) (links : List String)
    (h : lookupLinks site u = some links) : u ∈ site.pages.map Prod.fst := by
  unfold lookupLinks at h
  cases hf : site.pages.find? (fun p => p.1 == u) with
  | none => rw [hf] at h; cases h
  | some pr =>
    have hprmem : pr ∈ site.pages := List.mem_of_find?_eq_some hf
    have hpred := List.find?_some hf
    have heq : pr.1 = u := by simpa using hpred
    exact heq ▸ List.mem_map.mpr ⟨pr, hprmem, rfl⟩

/-- Every iteration of the crawl loop on a nonempty queue shrinks the measure. -/
theorem crawlMeasure_step_lt (site : Site) (maxDepth : Nat) (s : CrawlState)
    (hq : s.queue ≠ []) :
    crawlMeasure site (crawlStep site maxDepth s) < crawlMeasure site s := by
  rcases s with ⟨queue, processed, count⟩
  cases queue with
  | nil => exact absurd rfl hq
  | cons head rest =>
    rcases head with ⟨u, d⟩
    show crawlMeasure site (crawlStep site maxDepth ⟨(u, d) :: rest, processed, count⟩) < _
    cases hp : processed.contains u with
    | true =>
      have hp' : u ∈ processed := by simpa using hp
      have hstep : crawlStep site maxDepth ⟨(u, d) :: rest, processed, count⟩ =
          ⟨rest, processed, count⟩ := by
        unfold crawlStep
        simp [hp']
      rw [hstep]
      unfold crawlMeasure
      simp only [List.length_cons]
      omega
    | false =>
      have hp' : u ∉ processed := by simpa using hp
      cases hl : lookupLinks site u with
      | none =>
        have hstep : crawlStep site maxDepth ⟨(u, d) :: rest, processed, count⟩ =
            ⟨rest, processed, count⟩ := by
          unfold crawlStep
          simp [hp', hl]
        rw [hstep]
        unfold crawlMeasure
        simp only [List.length_cons]
        omega
      | some links =>
        have hstep : crawlStep site maxDepth ⟨(u, d) :: rest, processed, count⟩ =
            ⟨rest ++ (if d < maxDepth then
                (links.filter (fun l => !((processed ++ [u]).contains l))).map
                  (fun l => (l, d + 1)) else []),
              processed ++ [u], count + 1⟩ := by
          unfold crawlStep
          simp [hp', hl]
        rw [hstep]
        unfold crawlMeasure
        simp only [List.length_append, List.length_cons]
        have henq : (if d < maxDepth then
            (links.filter (fun l => !((processed ++ [u]).contains l))).map
              (fun l => (l, d + 1)) else []).length < totalLinks site + 1 := by
          split
          · calc ((links.filter (fun l => !((processed ++ [u]).contains l))).map
                (fun l => (l, d + 1))).length
                = (links.filter (fun l => !((processed ++ [u]).contains l))).length := by
                  rw [List.length_map]
              _ ≤ links.length := List.length_filter_le _ _
              _ ≤ totalLinks site := links_le_totalLinks site u links hl
              _ < totalLinks site + 1 := Nat.lt_succ_self _
          · simp
        have hult : unprocessedCount site (processed ++ [u]) < unprocessedCount site processed :=
          unprocessedCount_lt site processed u (lookupLinks_mem_keys site u links hl) hp
        have hab : unprocessedCount site (processed ++ [u]) * (totalLinks site + 1) +
            (totalLinks site + 1) ≤ unprocessedCount site processed * (totalLinks site + 1) := by
          have h2 : unprocessedCount site (processed ++ [u]) + 1 ≤ unprocessedCount site processed :=
            hult
          have h3 := Nat.mul_le_mul_right (totalLinks site + 1) h2
          rw [Nat.succ_mul] at h3
          exact h3
        exact measure_arith _ _ (totalLinks site + 1) rest.length _ hab henq

/-- The while loop of ApifyCrawler.crawl (apify-crawler.ts line 38): loop while
the queue is nonempty and processedCount < maxPages. Termination is by
`crawlMeasure`: the finite site supplies finitely many processable urls and
finitely many links, so the loop always terminates, cyclic link graphs
included. -/
def crawlLoop (site : Site) (maxPages maxDepth : Nat) (s : CrawlState) : CrawlState :=
  if h : s.queue = [] ∨ maxPages ≤ s.count then
    s
  else
    crawlLoop site maxPages maxDepth (crawlStep site maxDepth s)
termination_by crawlMeasure site s
decreasing_by
  exact crawlMeasure_step_lt site maxDepth s (fun hnil => h (Or.inl hnil))

/-- ApifyCrawler.crawl (apify-crawler.ts lines 32-83): run the loop from the
seed at depth 0 with nothing processed. `processed` of the final state lists,
in order, the urls the page callback ran on. -/
def crawl (site : Site) (maxPages maxDepth : Nat) (seed : String) : CrawlState :=
  crawlLoop site maxPages maxDepth ⟨[(seed, 0)], [], 0⟩

/-! ## Theorems -/

theorem calculateSummary_fold (l : List SecurityFinding) (s : Summary) :
    l.foldl (fun a f => bumpSeverity a f.severity) s =
    { total := s.total,
      critical := s.critical + (l.filter (fun f => f.severity == Severity.critical)).length,
      high := s.high + (l.filter (fun f => f.severity == Severity.high)).length,
      medium := s.medium + (l.filter (fun f => f.severity == Severity.medium)).length,
      low := s.low + (l.filter (fun f => f.severity == Severity.low)).length } := by
  induction l generalizing s with
  | nil => simp
  | cons f t ih =>
    rw [List.foldl_cons, ih]
    cases hsev : f.severity <;>
      simp [bumpSeverity, hsev, List.filter_cons, Summary.mk.injEq] <;> omega

theorem severity_filter_partition (l : List SecurityFinding) :
    (l.filter (fun f => f.severity == Severity.critical)).length +
    (l.filter (fun f => f.severity == Severity.high)).length +
    (l.filter (fun f => f.severity == Severity.medium)).length +
    (l.filter (fun f => f.severity == Severity.low)).length = l.length := by
  induction l with
  | nil => simp
  | cons f t ih =>
    cases hsev : f.severity <;> simp [List.filter_cons, hsev] <;> omega

/-- C1: for every findings sequence, calculateSummary returns total =
len(findings), each severity counter equal to the number of findings with that
severity, and critical + high + medium + low = total. -/
theorem calculateSummary_invariant (findings : List SecurityFinding) :
    (calculateSummary findings).total = findings.length ∧
    (calculateSummary findings).critical =
      (findings.filter (fun f => f.severity == Severity.critical)).length ∧
    (calculateSummary findings).high =
      (findings.filter (fun f => f.severity == Severity.high)).length ∧
    (calculateSummary findings).medium =
      (findings.filter (fun f => f.severity == Severity.medium)).length ∧
    (calculateSummary findings).low =
      (findings.filter (fun f => f.severity == Severity.low)).length ∧
    (calculateSummary findings).critical + (calculateSummary findings).high +
      (calculateSummary findings).medium + (calculateSummary findings).low =
      (calculateSummary findings).total := by
  unfold calculateSummary
  rw [calculateSummary_fold]
  refine ⟨rfl, by simp, by simp, by simp, by simp, ?_⟩
  have hpart := severity_filter_partition findings
  simp only []
  omega

/-- C2: whenever any step of the scan pipeline (fetch, the response-ok test,
or the checks) throws, scanWebsite returns a result with status failed, the
original unnormalized url, empty findings and a zeroed summary; as a total
Lean function it never raises at all. -/
theorem scanWebsite_error_failed (scanId : String) (timestamp : Nat) (url : String)
    (fetch : String → Except String FetchResponse)
    (runChecks : String → FetchResponse → Except String (List SecurityFinding))
    (e : String)
    (herr : scanAttempt (normalizeUrl url) fetch runChecks = Except.error e) :
    scanWebsite scanId timestamp url fetch runChecks =
      { id := scanId, url := url, timestamp := timestamp,
        status := ScanStatus.failed, findings := [],
        summary := { total := 0, critical := 0, high := 0, medium := 0, low := 0 } } := by
  unfold scanWebsite
  simp only []
  rw [herr]

theorem scanWebsite_error_failed_witness :
    scanAttempt (normalizeUrl "example.com") (fun _ => Except.error "network down")
      (fun _ _ => Except.ok []) = Except.error "network down" ∧
    scanWebsite "scan1" 0 "example.com" (fun _ => Except.error "network down")
      (fun _ _ => Except.ok []) =
      { id := "scan1", url := "example.com", timestamp := 0,
        status := ScanStatus.failed, findings := [],
        summary := { total := 0, critical := 0, high := 0, medium := 0, low := 0 } } :=
  ⟨rfl, scanWebsite_error_failed "scan1" 0 "example.com" _ _ "network down" rfl⟩

theorem crawlStep_success_eq (site : Site) (maxDepth : Nat)
    (u : String) (d : Nat) (rest : List (String × Nat)) (processed : List String)
    (count : Nat) (links : List String)
    (hp : processed.contains u = false) (hl : lookupLinks site u = some links) :
    crawlStep site maxDepth ⟨(u, d) :: rest, processed, count⟩ =
      ⟨rest ++ (if d < maxDepth then
          (links.filter (fun l => !((processed ++ [u]).contains l))).map (fun l => (l, d + 1))
        else []),
        processed ++ [u], count + 1⟩ := by
  have hp' : u ∉ processed := by simpa using hp
  unfold crawlStep
  simp [hp', hl]

theorem crawlStep_nodup (site : Site) (maxDepth : Nat) (s : CrawlState)
    (h : s.processed.Nodup) : (crawlStep site maxDepth s).processed.Nodup := by
  rcases s with ⟨queue, processed, count⟩
  cases queue with
  | nil => exact h
  | cons head rest =>
    rcases head with ⟨u, d⟩
    cases hp : processed.contains u with
    | true =>
      have hp' : u ∈ processed := by simpa using hp
      show (crawlStep site maxDepth ⟨(u, d) :: rest, processed, count⟩).processed.Nodup
      unfold crawlStep
      simpa [hp'] using h
    | false =>
      have hp' : u ∉ processed := by simpa using hp
      cases hl : lookupLinks site u with
      | none =>
        show (crawlStep site maxDepth ⟨(u, d) :: rest, processed, count⟩).processed.Nodup
        unfold crawlStep
        simpa [hp', hl] using h
      | some links =>
        rw [crawlStep_success_eq site maxDepth u d rest processed count links hp hl]
        simpa [List.nodup_append] using ⟨h, hp'⟩

theorem crawlStep_count_le (site : Site) (maxDepth maxPages : Nat) (s : CrawlState)
    (h : s.count < maxPages) : (crawlStep site maxDepth s).count ≤ maxPages := by
  rcases s with ⟨queue, processed, count⟩
  cases queue with
  | nil => exact Nat.le_of_lt h
  | cons head rest =>
    rcases head with ⟨u, d⟩
    cases hp : processed.contains u with
    | true =>
      have hp' : u ∈ processed := by simpa using hp
      show (crawlStep site maxDepth ⟨(u, d) :: rest, processed, count⟩).count ≤ maxPages
      unfold crawlStep
      simpa [hp'] using Nat.le_of_lt h
    | false =>
      have hp' : u ∉ processed := by simpa using hp
      cases hl : lookupLinks site u with
      | none =>
        show (crawlStep site maxDepth ⟨(u, d) :: rest, processed, count⟩).count ≤ maxPages
        unfold crawlStep
        simpa [hp', hl] using Nat.le_of_lt h
      | some links =>
        rw [crawlStep_success_eq site maxDepth u d rest processed count links hp hl]
        exact h

/-- Loop invariant of ApifyCrawler.crawl: the callback-invocation list stays
duplicate-free and processedCount never passes maxPages; proved by recursion
on the same measure that terminates the loop. -/
theorem crawlLoop_inv (site : Site) (maxPages maxDepth : Nat) (s : CrawlState)
    (h1 : s.processed.Nodup) (h2 : s.count ≤ maxPages) :
    (crawlLoop site maxPages maxDepth s).processed.Nodup ∧
    (crawlLoop site maxPages maxDepth s).count ≤ maxPages := by
  unfold crawlLoop
  split
  · exact ⟨h1, h2⟩
  · rename_i hcond
    push_neg at hcond
    have hq : s.queue ≠ [] := hcond.1
    have hc : s.count < maxPages := hcond.2
    exact crawlLoop_inv site maxPages maxDepth (crawlStep site maxDepth s)
      (crawlStep_nodup site maxDepth s h1)
      (crawlStep_count_le site maxDepth maxPages s hc)
termination_by crawlMeasure site s
decreasing_by
  exact crawlMeasure_step_lt site maxDepth s hq

/-- C3: for every finite site graph (cycles included) and maxPages ≥ 1, the
crawl loop terminates (crawl is a total function, by well-founded recursion on
crawlMeasure), the page callback runs at most once per distinct url (the
invocation list is duplicate-free), and the successfully-processed page count
never exceeds maxPages. -/
theorem crawl_nodup_and_bounded (site : Site) (maxPages maxDepth : Nat)
    (seed : String) (hmp : 1 ≤ maxPages) :
    (crawl site maxPages maxDepth seed).processed.Nodup ∧
    (crawl site maxPages maxDepth seed).count ≤ maxPages :=
  crawlLoop_inv site maxPages maxDepth ⟨[(seed, 0)], [], 0⟩ (by simp) (Nat.zero_le _)

/-- Concrete cyclic three-page site used by the crawler witnesses. -/
def siteA : Site :=
  ⟨[("https://a.com", ["https://a.com/b", "https://a.com/c", "https://a.com"]),
    ("https://a.com/b", ["https://a.com"]),
    ("https://a.com/c", ["https://a.com/b"])]⟩

theorem crawl_nodup_and_bounded_witness :
    1 ≤ 10 ∧
    ((crawl siteA 10 2 "https://a.com").processed.Nodup ∧
     (crawl siteA 10 2 "https://a.com").count ≤ 10) :=
  ⟨by decide, crawl_nodup_and_bounded siteA 10 2 "https://a.com" (by decide)⟩

/-- C7 (amended): after a successful page fetch, each extracted link is
enqueued at depth + 1 only if it is not already in the processed set (which
already includes the page just processed); nothing is checked against the
queue itself. -/
theorem crawlStep_enqueues_only_unprocessed (site : Site) (maxDepth : Nat)
    (s : CrawlState) (u : String) (d : Nat) (rest : List (String × Nat))
    (links : List String)
    (hq : s.queue = (u, d) :: rest)
    (hp : s.processed.contains u = false)
    (hl : lookupLinks site u = some links) :
    ∀ e ∈ (crawlStep site maxDepth s).queue,
      e ∈ rest ∨
      (e.1 ∈ links ∧ e.2 = d + 1 ∧ (s.processed ++ [u]).contains e.1 = false) := by
  rcases s with ⟨queue, processed, count⟩
  simp only at hq hp hl
  subst hq
  rw [crawlStep_success_eq site maxDepth u d rest processed count links hp hl]
  intro e he
  simp only at he
  rcases List.mem_append.mp he with hrest | henq
  · exact Or.inl hrest
  · right
    rcases e with ⟨v, dv⟩
    split at henq
    · obtain ⟨l, hlmem, heq⟩ := List.mem_map.mp henq
      obtain ⟨hlinks, hpred⟩ := List.mem_filter.mp hlmem
      injection heq with h1 h2
      subst h1
      subst h2
      exact ⟨hlinks, rfl, by simpa using hpred⟩
    · cases henq

theorem crawlStep_enqueues_only_unprocessed_witness :
    ((⟨[("https://a.com", 0)], [], 0⟩ : CrawlState).queue = [("https://a.com", 0)] ∧
     (([] : List String).contains "https://a.com" = false) ∧
     lookupLinks siteA "https://a.com" =
       some ["https://a.com/b", "https://a.com/c", "https://a.com"]) ∧
    (∀ e ∈ (crawlStep siteA 2 ⟨[("https://a.com", 0)], [], 0⟩).queue,
      e ∈ ([] : List (String × Nat)) ∨
      (e.1 ∈ ["https://a.com/b", "https://a.com/c", "https://a.com"] ∧ e.2 = 0 + 1 ∧
        (([] : List String) ++ ["https://a.com"]).contains e.1 = false)) :=
  ⟨⟨rfl, by decide, by decide⟩,
    crawlStep_enqueues_only_unprocessed siteA 2 ⟨[("https://a.com", 0)], [], 0⟩
      "https://a.com" 0 [] ["https://a.com/b", "https://a.com/c", "https://a.com"]
      rfl (by decide) (by decide)⟩

/-- Concrete site on which the crawl queue comes to hold two entries with the
same url: a links to b and c, b links to c; after processing a and b the queue
is [(c, 1), (c, 2)]. -/
def siteB : Site := ⟨[("a", ["b", "c"]), ("b", ["c"]), ("c", [])]⟩

/-- C7 counterexample: two iterations of the loop body from the seed state of
siteB leave the queue holding the url c twice — the enqueue guard consults
only the processed set, never the queue, so the claimed queue-duplicate
freedom fails. -/
theorem crawl_queue_duplicates_counterexample :
    ¬ (((crawlStep siteB 2 (crawlStep siteB 2 ⟨[("a", 0)], [], 0⟩)).queue.map
        Prod.fst).Nodup) := by decide

/-- C4 counterexample: normalizeUrl is not idempotent. On "https://a.com//"
one pass strips one slash giving "https://a.com/", and a second pass strips
another, so normalize(normalize(u)) differs from normalize(u). -/
theorem normalizeUrl_not_idempotent :
    normalizeUrl (normalizeUrl "https://a.com//") ≠ normalizeUrl "https://a.com//" := by
  decide

/-- C4 (amended): normalizeUrl is idempotent on every input whose normalized
form starts with http:// or https:// and does not end with a slash (each pass
is then the identity); the two concrete equalities of the claim hold
unconditionally. Unrestricted idempotence fails, e.g. at "https://a.com//". -/
theorem normalizeUrl_conditionally_idempotent (u : String)
    (h1 : jsStartsWith (normalizeUrl u) "http://" = true ∨
          jsStartsWith (normalizeUrl u) "https://" = true)
    (h2 : jsEndsWith (normalizeUrl u) "/" = false) :
    normalizeUrl (normalizeUrl u) = normalizeUrl u ∧
    normalizeUrl "example.com" = "https://example.com" ∧
    normalizeUrl "https://a.com/" = "https://a.com" := by
  refine ⟨?_, by decide, by decide⟩
  generalize normalizeUrl u = v at h1 h2
  rcases h1 with h1 | h1 <;> simp [normalizeUrl, h1, h2]

theorem normalizeUrl_conditionally_idempotent_witness :
    ((jsStartsWith (normalizeUrl "https://example.com") "http://" = true ∨
      jsStartsWith (normalizeUrl "https://example.com") "https://" = true) ∧
     jsEndsWith (normalizeUrl "https://example.com") "/" = false) ∧
    (normalizeUrl (normalizeUrl "https://example.com") = normalizeUrl "https://example.com" ∧
     normalizeUrl "example.com" = "https://example.com" ∧
     normalizeUrl "https://a.com/" = "https://a.com") :=
  ⟨⟨Or.inr (by decide), by decide⟩,
   normalizeUrl_conditionally_idempotent "https://example.com"
     (Or.inr (by decide)) (by decide)⟩

/-- C5: a response with no headers at all yields exactly the 6 missing-header
findings, in table order, with severities CSP high, X-Frame-Options medium,
X-Content-Type-Options medium, X-XSS-Protection low, STS high, Referrer-Policy
low, and no csp-no-default-src finding is produced when CSP is absent. -/
theorem checkSecurityHeaders_no_headers :
    (checkSecurityHeaders []).map (fun f => (f.id, f.severity)) =
      [("missing-content-security-policy", Severity.high),
       ("missing-x-frame-options", Severity.medium),
       ("missing-x-content-type-options", Severity.medium),
       ("missing-x-xss-protection", Severity.low),
       ("missing-strict-transport-security", Severity.high),
       ("missing-referrer-policy", Severity.low)] ∧
    (checkSecurityHeaders []).length = 6 ∧
    ∀ f ∈ checkSecurityHeaders [], f.id ≠ "csp-no-default-src" := by
  refine ⟨by decide, by decide, ?_⟩
  decide

/-- C6: on an https page, Set-Cookie: a=1 yields exactly the three findings
missing-Secure (medium), missing-HttpOnly (medium), missing-SameSite (low),
and Set-Cookie: a=1; Secure; HttpOnly; SameSite=Lax yields none. -/
theorem checkCookies_examples :
    (checkCookies "https://example.com" [("Set-Cookie", "a=1")]).map
      (fun f => (f.id, f.severity)) =
      [("cookie-0-no-secure", Severity.medium),
       ("cookie-0-no-httponly", Severity.medium),
       ("cookie-0-no-samesite", Severity.low)] ∧
    (checkCookies "https://example.com" [("Set-Cookie", "a=1")]).length = 3 ∧
    checkCookies "https://example.com"
      [("Set-Cookie", "a=1; Secure; HttpOnly; SameSite=Lax")] = [] := by
  refine ⟨by decide, by decide, by decide⟩

theorem dedup_replicate_succ (n : Nat) (a : String) :
    (List.replicate (n + 1) a).dedup = [a] := by
  induction n with
  | zero => simp
  | succ n ih =>
    rw [List.replicate_succ, List.dedup_cons_of_mem (by simp)]
    exact ih

/-- C8 counterexample: two distinct https pages each contribute cookie
findings, yet the pagesScanned computation reports 1, because findings carry
no url and every entry falls back to the single target url. -/
theorem pagesScanned_two_pages_counterexample :
    checkCookies "https://t.com/a" [("Set-Cookie", "a=1")] ≠ [] ∧
    checkCookies "https://t.com/b" [("Set-Cookie", "b=1")] ≠ [] ∧
    ("https://t.com/a" : String) ≠ "https://t.com/b" ∧
    pagesScanned "https://t.com"
      (checkCookies "https://t.com/a" [("Set-Cookie", "a=1")] ++
       checkCookies "https://t.com/b" [("Set-Cookie", "b=1")]) = 1 ∧
    (1 : Nat) ≠ 2 := by
  refine ⟨by decide, by decide, by decide, by decide, by decide⟩

/-- C8 (amended): pagesScanned is 1 for an empty findings list, and in general
is the number of distinct values of finding.url-or-targetUrl; since the
SecurityFinding type has no url property, every finding falls back to the
target and every completed scan reports pagesScanned = 1. -/
theorem pagesScanned_always_one (targetUrl : String) (findings : List SecurityFinding)
    (h : ∀ f ∈ findings, f.url = none) :
    pagesScanned targetUrl findings = 1 := by
  cases findings with
  | nil => rfl
  | cons f t =>
    have hmap : (f :: t).map (fun g => g.url.getD targetUrl) =
        List.replicate (t.length + 1) targetUrl := by
      have hall : ∀ b ∈ (f :: t).map (fun g => g.url.getD targetUrl), b = targetUrl := by
        intro b hb
        obtain ⟨g, hg, rfl⟩ := List.mem_map.mp hb
        rw [h g hg]
        rfl
      have := List.eq_replicate_of_mem hall
      simpa using this
    unfold pagesScanned
    rw [hmap, dedup_replicate_succ]
    simp

theorem pagesScanned_always_one_witness :
    (∀ f ∈ checkSecurityHeaders [], f.url = none) ∧
    pagesScanned "https://t.com" (checkSecurityHeaders []) = 1 :=
  ⟨by decide, pagesScanned_always_one "https://t.com" (checkSecurityHeaders []) (by decide)⟩

/-- Concrete stored session used by the session-store theorems. -/
def sessionEx : SessionData :=
  { scanId := "scan1", url := "https://a.com", scanResult := none,
    chatHistory := [], createdAt := 0, lastActivity := 0 }

/-- C9 counterexample: getStatus succeeds (HTTP 200) on an existing session at
operation time 5 but leaves the stored record byte-for-byte unchanged, so the
stored lastActivity stays 0 ≠ 5; reads do not update lastActivity. -/
theorem getStatus_leaves_lastActivity_counterexample :
    (getStatus 5 (some sessionEx)).status = 200 ∧
    (getStatus 5 (some sessionEx)).newState = some sessionEx ∧
    sessionEx.lastActivity = 0 ∧ (0 : Nat) ≠ 5 := by
  refine ⟨rfl, rfl, rfl, by decide⟩

/-- C9 (amended): the mutating handlers initiateScan, handleChat and
updateScanResult set the stored lastActivity to the operation time, while the
read handlers getStatus and getChatHistory return the stored session
unchanged (they never write and never touch lastActivity). -/
theorem session_ops_lastActivity (now : Nat)
    (newScanId userMsgId assistantMsgId aiResponse u msg : String)
    (d : SessionData) (r : ScanResult)
    (hu : ¬(u = "")) (hm : ¬(msg = "")) :
    ((initiateScan now newScanId (some u) (some d)).newState.map
      SessionData.lastActivity = some now) ∧
    ((handleChat now userMsgId assistantMsgId aiResponse (some msg) (some d)).newState.map
      SessionData.lastActivity = some now) ∧
    ((updateScanResult now r (some d)).newState.map
      SessionData.lastActivity = some now) ∧
    (getStatus now (some d)).newState = some d ∧
    (getChatHistory now (some d)).newState = some d := by
  have hu' : (u == "") = false := by simpa using hu
  have hm' : (msg == "") = false := by simpa using hm
  refine ⟨?_, ?_, rfl, rfl, rfl⟩
  · unfold initiateScan isFalsy
    simp only [hu', Bool.false_eq_true, if_false]
    split <;> rfl
  · unfold handleChat isFalsy
    simp only [hm', Bool.false_eq_true, if_false]
    rfl

theorem session_ops_lastActivity_witness :
    (¬(("https://b.com" : String) = "") ∧ ¬(("hello" : String) = "")) ∧
    (((initiateScan 7 "scan2" (some "https://b.com") (some sessionEx)).newState.map
       SessionData.lastActivity = some 7) ∧
     ((handleChat 7 "m1" "m2" "reply" (some "hello") (some sessionEx)).newState.map
       SessionData.lastActivity = some 7) ∧
     ((updateScanResult 7
        { id := "s", url := "https://a.com", timestamp := 1,
          status := ScanStatus.completed, findings := [],
          summary := { total := 0, critical := 0, high := 0, medium := 0, low := 0 } }
        (some sessionEx)).newState.map SessionData.lastActivity = some 7) ∧
     (getStatus 7 (some sessionEx)).newState = some sessionEx ∧
     (getChatHistory 7 (some sessionEx)).newState = some sessionEx) :=
  ⟨⟨by decide, by decide⟩,
   session_ops_lastActivity 7 "scan2" "m1" "m2" "reply" "https://b.com" "hello"
     sessionEx
     { id := "s", url := "https://a.com", timestamp := 1,
       status := ScanStatus.completed, findings := [],
       summary := { total := 0, critical := 0, high := 0, medium := 0, low := 0 } }
     (by decide) (by decide)⟩

/-- C10: initiateScan on an existing session with a different (truthy) url
keeps scanId and createdAt, replaces url, clears scanResult, empties
chatHistory and stamps lastActivity with the operation time. -/
theorem initiateScan_url_change (now : Nat) (newScanId u : String) (d : SessionData)
    (hu : ¬(u = "")) (hdiff : d.url ≠ u) :
    (initiateScan now newScanId (some u) (some d)).status = 200 ∧
    (initiateScan now newScanId (some u) (some d)).newState =
      some { scanId := d.scanId, url := u, scanResult := none, chatHistory := [],
             createdAt := d.createdAt, lastActivity := now } := by
  have hu' : (u == "") = false := by simpa using hu
  unfold initiateScan isFalsy
  simp only [hu', Bool.false_eq_true, if_false, Option.getD_some]
  simp [hdiff]

theorem initiateScan_url_change_witness :
    (¬(("https://new.com" : String) = "") ∧ sessionEx.url ≠ "https://new.com") ∧
    ((initiateScan 9 "scan3" (some "https://new.com") (some sessionEx)).status = 200 ∧
     (initiateScan 9 "scan3" (some "https://new.com") (some sessionEx)).newState =
       some { scanId := sessionEx.scanId, url := "https://new.com", scanResult := none,
              chatHistory := [], createdAt := sessionEx.createdAt, lastActivity := 9 }) :=
  ⟨⟨by decide, by decide⟩,
   initiateScan_url_change 9 "scan3" "https://new.com" sessionEx (by decide) (by decide)⟩

end WVS
